import Mathlib

/-!
# Verification of the marketbeat analyst-ratings extraction core

A shallow embedding of `src/marketbeat/marketbeat.py` (table locating,
field parsing, row assembly, dataset building) together with theorems
settling the specification claims.

Cell text and all strings are modelled as `List Char`; HTML markup is
modelled by just the structure the source code inspects (tag text,
attributes, nested `div`/`a` elements).  Python exceptions are modelled
by `Except PyErr`; `pandas.DataFrame` is modelled column-major as a list
of named columns.
-/

set_option autoImplicit false

namespace Marketbeat

/-- Character strings of the embedding (Python `str`). -/
abbrev Chars := List Char

/-- Convert a Lean string literal to the embedding's character-list form. -/
def chars (s : String) : Chars := s.data

/-- The directional arrow glyph U+279D used as the old/new separator. -/
def arrowChar : Char := '➝'

/-- Python `str.strip()` on the left. -/
def lstrip (cs : Chars) : Chars := cs.dropWhile (fun c => c.isWhitespace)

/-- Python `str.strip()`: drop leading and trailing whitespace. -/
def pyStrip (cs : Chars) : Chars := (lstrip ((lstrip cs).reverse)).reverse

/-- The text after the last occurrence of `c` (the whole string when `c`
is absent); this is Python `s.split(c)[-1]`. -/
def afterLast (c : Char) (cs : Chars) : Chars :=
  (cs.reverse.takeWhile (fun x => x ≠ c)).reverse

/-- Python `s.replace(c, '')` for a single-character pattern. -/
def removeChar (c : Char) (cs : Chars) : Chars := cs.filter (fun x => x ≠ c)

/-- Python `s.split(c)` for a single-character separator. -/
def splitOnChar (c : Char) : Chars → List Chars
  | [] => [[]]
  | x :: xs =>
    match splitOnChar c xs with
    | [] => [[]]
    | s :: ss => if x = c then [] :: s :: ss else (x :: s) :: ss

/-- Test `strStarts n h`: `h` starts with `n`. -/
def strStarts : Chars → Chars → Bool
  | [], _ => true
  | _ :: _, [] => false
  | n :: ns, h :: hs => n = h && strStarts ns hs

/-- Test `strHas n h`: `n` occurs as a contiguous substring of `h`.  This is
what the source's regex search for `.*` + hint + `.*` amounts to for a
metacharacter-free search string (note: NO case folding). -/
def strHas (n : Chars) : Chars → Bool
  | [] => n.isEmpty
  | h :: hs => strStarts n (h :: hs) || strHas n hs

/-- Case-insensitive containment, written from the spec's words
("case- and position-insensitive containment") for comparison with the
source's case-sensitive `strHas`. -/
def ciHas (n h : Chars) : Bool :=
  strHas (n.map Char.toLower) (h.map Char.toLower)

/-- Remove every occurrence of substring `pat` (Python `s.replace(pat, '')`),
scanning left to right; `fuel` bounds recursion (callers pass `hay.length`). -/
def removeSubAux (pat : Chars) : Nat → Chars → Chars
  | _, [] => []
  | 0, hay => hay
  | fuel + 1, c :: rest =>
    if pat ≠ [] ∧ strStarts pat (c :: rest) then
      removeSubAux pat fuel ((c :: rest).drop pat.length)
    else
      c :: removeSubAux pat fuel rest

/-- Python `s.replace(pat, '')` for a non-empty substring pattern. -/
def removeSub (pat hay : Chars) : Chars := removeSubAux pat hay.length hay

/-- Digit sequence test. -/
def digitsOnly (cs : Chars) : Bool := cs.all (fun c => c.isDigit)

/-- Numeric value of a digit string. -/
def natOfDigits (cs : Chars) : Nat :=
  cs.foldl (fun acc c => 10 * acc + (c.toNat - '0'.toNat)) 0

/-- An exact decimal number `mant / 10 ^ scale`: the result of parsing a
decimal literal.  (Using an exact decimal pair rather than binary floating
point; every literal the claims mention, such as `12.50`, is represented
exactly by both.) -/
structure DecNum where
  mant : Int
  scale : Nat
deriving DecidableEq

/-- The rational value denoted by a `DecNum`. -/
def decNumVal (d : DecNum) : Rat := (d.mant : Rat) / 10 ^ d.scale

/-- Magnitude part of Python `float()` on plain decimal literals:
digits with at most one decimal point (exponents, `inf`/`nan` and digit
underscores are outside the modelled fragment; the source only ever
receives plain currency amounts). -/
def pyFloatMag (cs : Chars) : Option DecNum :=
  let ip := cs.takeWhile (fun c => c ≠ '.')
  match cs.dropWhile (fun c => c ≠ '.') with
  | [] => if ip ≠ [] ∧ digitsOnly ip then some ⟨natOfDigits ip, 0⟩ else none
  | '.' :: fp =>
    if digitsOnly ip ∧ digitsOnly fp ∧ (ip ≠ [] ∨ fp ≠ []) then
      some ⟨natOfDigits ip * 10 ^ fp.length + natOfDigits fp, fp.length⟩
    else none
  | _ :: _ => none

/-- Model of Python `float(s)` (decimal fragment): optional surrounding
whitespace, optional sign, digits with at most one point.  Returns the
exact decimal value; `none` models `ValueError`. -/
def pyFloat (cs : Chars) : Option DecNum :=
  match pyStrip cs with
  | '-' :: rest => (pyFloatMag rest).map (fun d => ⟨-d.mant, d.scale⟩)
  | '+' :: rest => pyFloatMag rest
  | rest => pyFloatMag rest

/-- Model of Python `int(s)`: optional surrounding whitespace, optional
sign, one or more digits (digit underscores are outside the modelled
fragment).  `none` models `ValueError`. -/
def pyInt (cs : Chars) : Option Int :=
  match pyStrip cs with
  | '-' :: ds => if ds ≠ [] ∧ digitsOnly ds then some (-(natOfDigits ds : Int)) else none
  | '+' :: ds => if ds ≠ [] ∧ digitsOnly ds then some ((natOfDigits ds : Int)) else none
  | ds => if ds ≠ [] ∧ digitsOnly ds then some ((natOfDigits ds : Int)) else none

/-! ## HTML markup model

Only the structure `marketbeat.py` actually inspects is modelled: a cell
(`<td>`/`<th>`) carries its text, its attributes, its nested `div`
elements (class and text) and its nested anchor (`<a>`) elements; the
page is a flat list of the node kinds the code searches for, in document
order. -/

/-- A nested `<a>` element: optional `href` attribute and its text. -/
structure Anchor where
  href : Option Chars
  text : Chars
deriving DecidableEq

/-- A nested `<div>` element: its class attribute and its text. -/
structure DivTag where
  cls : Chars
  text : Chars
deriving DecidableEq

/-- One table cell (`bs4` Tag as the field parsers use it). -/
structure Cell where
  text : Chars
  attrs : List (Chars × Chars)
  divs : List DivTag
  anchors : List Anchor
deriving DecidableEq

/-- Model of `tag.get(key, default)` on a cell. -/
def getAttr (c : Cell) (k : Chars) : Option Chars :=
  (c.attrs.find? (fun p => p.1 = k)).map (fun p => p.2)

/-- Model of `tag.find("div", \x7b"class": cls\x7d)` on a cell. -/
def findDiv (c : Cell) (cls : Chars) : Option DivTag :=
  c.divs.find? (fun d => d.cls = cls)

/-- Model of `tag.find("a")` on a cell. -/
def findA (c : Cell) : Option Anchor := c.anchors.head?

/-- One `<tr>` of a table body: its class list and its `<td>` cells. -/
structure TRow where
  classes : List Chars
  tds : List Cell
deriving DecidableEq

/-- A `<table>` with its `<thead>` `<th>` cells and `<tbody>` rows. -/
structure HTable where
  ths : List Cell
  trs : List TRow
deriving DecidableEq

/-- A top-level document node, in document order. -/
inductive Node where
  | h2 (text : Chars)
  | htable (t : HTable)
  | div (text : Chars)
  | li (idAttr : Chars) (anchors : List Anchor)
  | other
deriving DecidableEq

/-- A parsed HTML document (`BeautifulSoup` object): nodes in document
order. -/
structure Doc where
  nodes : List Node
deriving DecidableEq

/-- Python exceptions relevant to the embedded code.  The structural
"no table / no matching heading" failure of the Table Locator is
`tableNotFound` (the spec's `TableNotFoundError`). -/
inductive PyErr where
  | tableNotFound
  | attributeError
  | indexError
  | valueError
  | typeError
  | keyError
deriving DecidableEq

/-! ## Field values and records -/

/-- A Python value stored in a record / DataFrame cell. -/
inductive PyVal where
  | str (s : Chars)
  | int (n : Int)
  | float (d : DecNum)
  | none
deriving DecidableEq

/-- Python `str()` of a stored value, as used by `.astype(str)`.  (Only
the `str` case is ever exercised by the programme: `uid` is built from
the `date`, `symbol` and `brokerage` fields, which are always strings.) -/
def pyStrOf : PyVal → Chars
  | .str s => s
  | .int n => chars (toString n)
  | .float d => chars (toString d.mant) ++ chars "e-" ++ chars (toString d.scale)
  | .none => chars "None"

/-- A record: a Python dict as an ordered association list. -/
abbrev Rec := List (Chars × PyVal)

/-- The keys of a record, in dict order. -/
def keysOf (r : Rec) : List Chars := r.map (fun p => p.1)

/-- Dict lookup. -/
def lookupRec (r : Rec) (k : Chars) : Option PyVal :=
  (r.find? (fun p => p.1 = k)).map (fun p => p.2)

/-! ## Field parsers (§4.1), translated from `marketbeat.py` -/

/-- Source `parseSymbolTag` (marketbeat.py:73): ticker text from the
`ticker-area` div, exchange from the third `/`-separated component of the
first anchor's href (defaulting the href to `""`), company from the
`title-area` div.  A missing div raises (`AttributeError`); a missing
anchor raises; a short href raises (`IndexError`). -/
def parseSymbolTag (tag : Cell) : Except PyErr (Chars × Chars × Chars) := do
  let tickerDiv ← (findDiv tag (chars "ticker-area")).elim (.error .attributeError) .ok
  let symbol := tickerDiv.text
  let a ← (findA tag).elim (.error .attributeError) .ok
  let href := a.href.getD []
  let part ← ((splitOnChar '/' href).get? 2).elim (.error .indexError) .ok
  let exchange := pyStrip part
  let titleDiv ← (findDiv tag (chars "title-area")).elim (.error .attributeError) .ok
  let company := titleDiv.text
  return (symbol, company, exchange)

/-- Match of `re.match('/ratings/by-issuer/([-\w]+)', href)`: the href
must start with the literal `/ratings/by-issuer/`, and the group is the
maximal following run of word characters or `-` (ASCII fragment of
`\w`), which must be non-empty. -/
def byIssuerCode (href : Chars) : Option Chars :=
  let pre := chars "/ratings/by-issuer/"
  if strStarts pre href then
    let rest := href.drop pre.length
    let code := rest.takeWhile (fun c => c.isAlphanum ∨ c = '_' ∨ c = '-')
    if code ≠ [] then some code else Option.none
  else Option.none

/-- Source `parseBrokerageTag` (marketbeat.py:84): brokerage code from the first
anchor's href via the `/ratings/by-issuer/` pattern with the suffix
`-stock-recommendations` removed; brokerage name is the anchor's text.
A missing anchor raises; a missing href makes `re.match` raise
(`TypeError`); a failed pattern match raises (`AttributeError`). -/
def parseBrokerageTag (tag : Cell) : Except PyErr (Chars × Chars) := do
  let a ← (findA tag).elim (.error .attributeError) .ok
  let href ← a.href.elim (.error .typeError) .ok
  let code ← (byIssuerCode href).elim (.error .attributeError) .ok
  let brokerage_code := removeSub (chars "-stock-recommendations") code
  let brokerage := a.text
  return (brokerage, brokerage_code)

/-- Source `parseAnalystTag` (marketbeat.py:98): trimmed text of the first
anchor, or Python `None` when there is no anchor.  Never raises. -/
def parseAnalystTag (tag : Cell) : PyVal :=
  match findA tag with
  | some a => .str (pyStrip a.text)
  | Option.none => .none

/-- Source `parsePriceTargetTag` (marketbeat.py:109): the text after the last
arrow glyph, with `$` and `,` removed and whitespace stripped, parsed as
a float; raises `ValueError` when not numeric. -/
def parsePriceTargetTag (tag : Cell) : Except PyErr DecNum :=
  let pt := afterLast arrowChar tag.text
  match pyFloat (pyStrip (removeChar ',' (removeChar '$' pt))) with
  | some d => .ok d
  | Option.none => .error .valueError

/-- Source `parseRatingTag` (marketbeat.py:119): the trimmed text after the last
arrow glyph, paired with `int(tag.get("data-sort-value", default="-1"))`;
raises `ValueError` when the present attribute is not an integer
literal. -/
def parseRatingTag (tag : Cell) : Except PyErr (Chars × Int) :=
  let rating := pyStrip (afterLast arrowChar tag.text)
  match pyInt ((getAttr tag (chars "data-sort-value")).getD (chars "-1")) with
  | some n => .ok (rating, n)
  | Option.none => .error .valueError

/-! ## Date handling -/

/-- Match `\d{1,2}` followed by a literal `/` at the head of the input
(greedy: two digits are taken when the third character is the slash),
returning the numeric value and the rest after the slash. -/
def mdySlash : Chars → Option (Nat × Chars)
  | a :: '/' :: rest =>
    if a.isDigit then some (a.toNat - '0'.toNat, rest) else Option.none
  | a :: b :: '/' :: rest =>
    if a.isDigit ∧ b.isDigit then
      some (10 * (a.toNat - '0'.toNat) + (b.toNat - '0'.toNat), rest)
    else Option.none
  | _ => Option.none

/-- Match `\d{4}` followed by a literal `)`, returning the year. -/
def y4Paren : Chars → Option Nat
  | a :: b :: c :: d :: ')' :: _ =>
    if a.isDigit ∧ b.isDigit ∧ c.isDigit ∧ d.isDigit then
      some (natOfDigits [a, b, c, d])
    else Option.none
  | _ => Option.none

/-- Match the full pattern `\((\d{1,2}/\d{1,2}/\d{4})\)` anchored at the
head of the input. -/
def parenDateAt : Chars → Option (Nat × Nat × Nat)
  | '(' :: rest => do
    let (m, rest) ← mdySlash rest
    let (d, rest) ← mdySlash rest
    let y ← y4Paren rest
    pure (m, d, y)
  | _ => Option.none

/-- Model of `re.search` of the parenthesised-date pattern: first match in the
text, scanning left to right. -/
def scanParenDate : Chars → Option (Nat × Nat × Nat)
  | [] => Option.none
  | c :: rest =>
    match parenDateAt (c :: rest) with
    | some t => some t
    | Option.none => scanParenDate rest

/-- Gregorian leap year. -/
def isLeap (y : Nat) : Bool := y % 4 = 0 ∧ (y % 100 ≠ 0 ∨ y % 400 = 0)

/-- Days in month `m` of year `y`. -/
def daysInMonth (m y : Nat) : Nat :=
  if m = 2 then (if isLeap y then 29 else 28)
  else if m = 4 ∨ m = 6 ∨ m = 9 ∨ m = 11 then 30
  else 31

/-- Left-pad a numeral with zeros to the given width (`strftime`
zero-padding). -/
def padNat (width n : Nat) : Chars :=
  let ds := Nat.toDigits 10 n
  List.replicate (width - ds.length) '0' ++ ds

/-- Model of `strptime(m/d/y, '%m/%d/%Y').strftime('%Y-%m-%d')` given the
numeric fields: validates the calendar date (this is where Python raises
`ValueError`, e.g. for month 13 or day 30 of February) and renders the
ISO form. -/
def toISO (m d y : Nat) : Option Chars :=
  if 1 ≤ m ∧ m ≤ 12 ∧ 1 ≤ d ∧ d ≤ daysInMonth m y ∧ 1 ≤ y then
    some (padNat 4 y ++ ['-'] ++ padNat 2 m ++ ['-'] ++ padNat 2 d)
  else Option.none

/-- Model of `strptime` of a whole cell text against `'%m/%d/%Y'`: the entire text
must be `\d{1,2}/\d{1,2}/\d{4}`. -/
def parseMDY (cs : Chars) : Option (Nat × Nat × Nat) := do
  let (m, rest) ← mdySlash cs
  let (d, rest) ← mdySlash rest
  match rest with
  | [a, b, c, e] =>
    if a.isDigit ∧ b.isDigit ∧ c.isDigit ∧ e.isDigit then
      pure (m, d, natOfDigits [a, b, c, e])
    else Option.none
  | _ => Option.none

/-- Source `parseDateTag` (marketbeat.py:129): the cell text parsed with
`'%m/%d/%Y'` and rendered as ISO; raises `ValueError` otherwise. -/
def parseDateTag (tag : Cell) : Except PyErr Chars :=
  match (parseMDY tag.text).bind (fun t => toISO t.1 t.2.1 t.2.2) with
  | some iso => .ok iso
  | Option.none => .error .valueError

/-! ## Table Locator (§4.2): `readTable` (marketbeat.py:24) -/

/-- First table node of a node list (`soup.find("table")`). -/
def firstTableIn : List Node → Option HTable
  | [] => Option.none
  | .htable t :: _ => some t
  | _ :: rest => firstTableIn rest

/-- Model of `soup.find("h2", string=re.compile('.*s.*')).findNext("table")`:
scan for the first `h2` whose text contains `s` (case-sensitively), then
take the first table after it in document order.  If the first matching
`h2` has no following table the result is `none` (no later matching `h2`
is tried, exactly as `findNext` behaves). -/
def tableAfterH2 (s : Chars) : List Node → Option HTable
  | [] => Option.none
  | .h2 t :: rest => if strHas s t then firstTableIn rest else tableAfterH2 s rest
  | _ :: rest => tableAfterH2 s rest

/-- The body rows of a table with the advertisement rows (class
`bottom-sort`) removed (the `decompose` loop of marketbeat.py:40),
each row as its list of `<td>` cells. -/
def cleanRows (t : HTable) : List (List Cell) :=
  (t.trs.filter (fun r => ¬ (chars "bottom-sort") ∈ r.classes)).map (fun r => r.tds)

/-- Source `readTable` (marketbeat.py:24): locate the table (first table when no
search string, table after the first matching `h2` otherwise), drop
advertisement rows (class `bottom-sort`), and return the header cells
and the body rows' cells.  Any failure to locate is `tableNotFound`
(in Python, an `AttributeError` on `None`). -/
def readTable (doc : Doc) (search : Option Chars) :
    Except PyErr (List Cell × List (List Cell)) :=
  let root :=
    match search with
    | Option.none => firstTableIn doc.nodes
    | some s => tableAfterH2 s doc.nodes
  match root with
  | Option.none => .error .tableNotFound
  | some t => .ok (t.ths, cleanRows t)

/-! ## Dataset Builder (§4.4): `buildDataFrame` (marketbeat.py:61)

A `pandas.DataFrame` is modelled column-major: a list of
(column name, column values) pairs, the values of one column listed in
row order.  `pd.DataFrame(list_of_dicts)` takes the columns in first-
appearance order of the dict keys; a dict missing a key contributes
`NaN`, modelled by `PyVal.none`. -/

/-- A DataFrame: named columns in order, each with its row values. -/
abbrev DataFrame := List (Chars × List PyVal)

/-- Column names of a DataFrame, in order. -/
def dfCols (df : DataFrame) : List Chars := df.map (fun p => p.1)

/-- The values of the named column (first occurrence). -/
def dfCol (df : DataFrame) (k : Chars) : Option (List PyVal) :=
  (df.find? (fun p => p.1 = k)).map (fun p => p.2)

/-- Number of rows of a DataFrame. -/
def nRows (df : DataFrame) : Nat :=
  match df with
  | [] => 0
  | c :: _ => c.2.length

/-- The columns of `pd.DataFrame(recs)`: dict keys in first-appearance
order. -/
def collectCols (recs : List Rec) : List Chars :=
  recs.foldl (fun acc r => acc ++ (keysOf r).filter (fun k => ¬ k ∈ acc)) []

/-- Model of `pd.DataFrame(recs)`. -/
def mkDataFrame (recs : List Rec) : DataFrame :=
  (collectCols recs).map
    (fun k => (k, recs.map (fun r => (lookupRec r k).getD .none)))

/-- Join `'_'.join` of the stringified `date`, `symbol`, `brokerage` triples,
row by row (the `.apply(..., axis=1)` of marketbeat.py:68). -/
def joinUid : List PyVal → List PyVal → List PyVal → List PyVal
  | d :: ds, s :: ss, b :: bs =>
    .str (pyStrOf d ++ ['_'] ++ pyStrOf s ++ ['_'] ++ pyStrOf b) :: joinUid ds ss bs
  | _, _, _ => []

/-- Source `buildDataFrame` (marketbeat.py:61): build the DataFrame from the
record dicts, drop `brokerage_code` (ignoring its absence), compute the
`uid` index from the `date`, `symbol`, `brokerage` columns (`KeyError`
when any is absent — in particular on an empty record list, whose frame
has no columns at all), and insert it as the first column (`ValueError`
when a `uid` column already exists, as `DataFrame.insert` refuses
duplicates). -/
def buildDataFrame (data : List Rec) : Except PyErr DataFrame :=
  let df := mkDataFrame data
  let df := df.filter (fun p => p.1 ≠ chars "brokerage_code")
  match dfCol df (chars "date"), dfCol df (chars "symbol"),
        dfCol df (chars "brokerage") with
  | some ds, some ss, some bs =>
    if (chars "uid") ∈ dfCols df then .error .valueError
    else .ok ((chars "uid", joinUid ds ss bs) :: df)
  | _, _, _ => .error .keyError

/-! ## Row Assembler and Workflows (§4.3, §4.5) -/

/-- Model of `row[i]` with Python `IndexError` on overflow. -/
def cellAt (row : List Cell) (i : Nat) : Except PyErr Cell :=
  (row.get? i).elim (.error .indexError) .ok

/-- The record dict literal both `processRow` closures return
(marketbeat.py:162 and 224): same keys, same order. -/
def mkRec (symbol date exchange action brokerage brokerage_code : Chars)
    (analyst : PyVal) (price_target : DecNum) (rating : Chars)
    (rating_code : Int) : Rec :=
  [(chars "symbol", .str symbol), (chars "date", .str date),
   (chars "exchange", .str exchange), (chars "action", .str action),
   (chars "brokerage", .str brokerage),
   (chars "brokerage_code", .str brokerage_code),
   (chars "analyst", analyst), (chars "price_target", .float price_target),
   (chars "rating", .str rating), (chars "rating_code", .int rating_code)]

/-- The key list of the record dicts, in dict order. -/
def recKeys : List Chars :=
  [chars "symbol", chars "date", chars "exchange", chars "action",
   chars "brokerage", chars "brokerage_code", chars "analyst",
   chars "price_target", chars "rating", chars "rating_code"]

/-- Source `processRow` of `getDailyRatingsTable` (marketbeat.py:143): columns
0 symbol/company/exchange, 1 action, 2 brokerage, 3 analyst,
5 price target, 6 rating; the batch-wide `date` is shared context.
The dict is built in the source's key order (`company` is parsed but not
stored, exactly as in the source). -/
def processDailyRow (date : Chars) (row : List Cell) : Except PyErr Rec := do
  let c0 ← cellAt row 0
  let (symbol, _company, exchange) ← parseSymbolTag c0
  let c1 ← cellAt row 1
  let action := pyStrip c1.text
  let c2 ← cellAt row 2
  let (brokerage, brokerage_code) ← parseBrokerageTag c2
  let c3 ← cellAt row 3
  let analyst := parseAnalystTag c3
  let c5 ← cellAt row 5
  let price_target ← parsePriceTargetTag c5
  let c6 ← cellAt row 6
  let (rating, rating_code) ← parseRatingTag c6
  return mkRec symbol date exchange action brokerage brokerage_code
    analyst price_target rating rating_code

/-- Source `processRow` of `getSymbolRatingsTable` (marketbeat.py:204): columns
0 date, 1 brokerage, 2 analyst, 3 action, 4 rating, 5 price target;
`symbol` and `exchange` are shared context. -/
def processSymbolRow (symbol exchange : Chars) (row : List Cell) :
    Except PyErr Rec := do
  let c0 ← cellAt row 0
  let date ← parseDateTag c0
  let c1 ← cellAt row 1
  let (brokerage, brokerage_code) ← parseBrokerageTag c1
  let c2 ← cellAt row 2
  let analyst := parseAnalystTag c2
  let c3 ← cellAt row 3
  let action := pyStrip c3.text
  let c4 ← cellAt row 4
  let (rating, rating_code) ← parseRatingTag c4
  let c5 ← cellAt row 5
  let price_target ← parsePriceTargetTag c5
  return mkRec symbol date exchange action brokerage brokerage_code
    analyst price_target rating rating_code

/-- The row loop with its `try/except Exception: pass` (marketbeat.py:190
and 253): a row whose processing raises is skipped, all others are
appended in order. -/
def assembleRows (f : List Cell → Except PyErr Rec) :
    List (List Cell) → List Rec
  | [] => []
  | row :: rest =>
    match f row with
    | .ok r => r :: assembleRows f rest
    | .error _ => assembleRows f rest

/-- The date-pattern search applied to one node: `div` nodes contribute
their first parenthesised-date match, everything else is skipped
(`soup.find("div", string=DATE_RE)` followed by `DATE_RE.search` on the
found text). -/
def divDateScan (n : Node) : Option (Nat × Nat × Nat) :=
  match n with
  | .div t => scanParenDate t
  | _ => Option.none

/-- The daily workflow's date resolution (marketbeat.py:181):
`datetime.today()` (passed in as `today`, already in ISO form) unless
some `div`'s text contains the parenthesised date pattern, in which case
the first such match is converted with `'%m/%d/%Y'`; `ValueError`
(e.g. `(2/30/2024)`) propagates. -/
def resolveDailyDate (doc : Doc) (today : Chars) : Except PyErr Chars :=
  match doc.nodes.findSome? divDateScan with
  | Option.none => .ok today
  | some (m, d, y) =>
    match toISO m d y with
    | some iso => .ok iso
    | Option.none => .error .valueError

/-- Source `getDailyRatingsTable` (marketbeat.py:138), with the fetched page and
the current date supplied by the external fetch collaborator: locate the
first table (no heading hint), resolve the batch date, assemble the rows
with per-row isolation, and build the DataFrame. -/
def getDailyRatingsTable (doc : Doc) (today : Chars) : Except PyErr DataFrame := do
  let (_, data) ← readTable doc Option.none
  let date ← resolveDailyDate doc today
  buildDataFrame (assembleRows (processDailyRow date) data)

/-- Link discovery on the overview page (marketbeat.py:243): the first
anchor of the `li` with id `liAnalystRatings`; a missing `li` or anchor
raises (`AttributeError`); a missing href leaves `None` for `re.match`
(`TypeError`). -/
def analystRatingsHref (doc : Doc) : Except PyErr Chars := do
  let anchors ← (doc.nodes.findSome? (fun n =>
    match n with
    | .li i as => if i = chars "liAnalystRatings" then some as else Option.none
    | _ => Option.none)).elim (.error .attributeError) .ok
  let a ← anchors.head?.elim (.error .attributeError) .ok
  a.href.elim (.error .typeError) .ok

/-- Model of `re.match('/stocks/(\w+)', href)` (marketbeat.py:246): href starts
with `/stocks/` followed by a non-empty run of word characters. -/
def stocksExchange (href : Chars) : Except PyErr Chars :=
  let pre := chars "/stocks/"
  if strStarts pre href then
    let code := (href.drop pre.length).takeWhile (fun c => c.isAlphanum ∨ c = '_')
    if code ≠ [] then .ok code else .error .attributeError
  else .error .attributeError

/-- Source `getSymbolRatingsTable` (marketbeat.py:199), with the two fetched
pages supplied by the external fetch collaborator: discover the exchange
from the overview page, locate the ratings table under the heading hint
`"Ratings History"`, assemble the rows with per-row isolation, and build
the DataFrame. -/
def getSymbolRatingsTable (symbol : Chars) (mainDoc ratingsDoc : Doc) :
    Except PyErr DataFrame := do
  let href ← analystRatingsHref mainDoc
  let exchange ← stocksExchange href
  let (_, data) ← readTable ratingsDoc (some (chars "Ratings History"))
  buildDataFrame (assembleRows (processSymbolRow symbol exchange) data)

/-- The rows of a built DataFrame read back as a record list
(`df.to_dict('records')`): used to state the round-trip claim. -/
def dfRecords (df : DataFrame) : List Rec :=
  (List.range (nRows df)).map
    (fun i => df.map (fun c => (c.1, (c.2.get? i).getD .none)))

/-- The texts of the `h2` heading nodes of a document, in order. -/
def h2Texts (doc : Doc) : List Chars :=
  doc.nodes.filterMap (fun n =>
    match n with
    | .h2 t => some t
    | _ => Option.none)

/-! ## Concrete fixtures (well-formed and malformed cells, rows, pages)
used by witnesses and counterexamples. -/

/-- A well-formed symbol/company cell. -/
def cSym : Cell :=
  { text := chars "AAPLApple Inc.", attrs := [],
    divs := [⟨chars "ticker-area", chars "AAPL"⟩,
             ⟨chars "title-area", chars "Apple Inc."⟩],
    anchors := [⟨some (chars "/stocks/NASDAQ/AAPL/"), chars "Apple"⟩] }

/-- A well-formed action cell. -/
def cAct : Cell := ⟨chars " Reiterated Rating ", [], [], []⟩

/-- A well-formed brokerage cell with a slug-style issuer link. -/
def cBrk : Cell :=
  ⟨chars "Morgan Stanley", [], [],
   [⟨some (chars "/ratings/by-issuer/morgan-stanley-stock-recommendations"),
     chars "Morgan Stanley"⟩]⟩

/-- An analyst cell with no anchor (analyst optional: parses to `None`). -/
def cAna : Cell := ⟨[], [], [], []⟩

/-- A well-formed price-target cell with an old ➝ new pairing. -/
def cPT : Cell := ⟨chars "$10.00 ➝ $12.50", [], [], []⟩

/-- A price-target cell with no arrow. -/
def cPTplain : Cell := ⟨chars "$12.50", [], [], []⟩

/-- A well-formed rating cell with `data-sort-value="3"`. -/
def cRat : Cell :=
  ⟨chars "Buy ➝ Overweight", [(chars "data-sort-value", chars "3")], [], []⟩

/-- A rating cell with no `data-sort-value` attribute. -/
def cRatNoAttr : Cell := ⟨chars "Sell ➝ Hold", [], [], []⟩

/-- A rating cell whose `data-sort-value` is not an integer literal. -/
def cRatBadAttr : Cell :=
  ⟨chars "Buy", [(chars "data-sort-value", chars "high")], [], []⟩

/-- A fully well-formed daily-ratings row (column 4 is unused by the
workflow and left empty). -/
def goodRow : List Cell := [cSym, cAct, cBrk, cAna, cAna, cPT, cRat]

/-- A malformed daily row: the brokerage cell has no anchor element. -/
def badRow : List Cell :=
  [cSym, cAct, ⟨chars "Morgan Stanley", [], [], []⟩, cAna, cAna, cPT, cRat]

/-- A daily page: a free-text date div `(5/1/2024)`, then a table with one
good row, one advertisement row and one malformed row. -/
def exDoc : Doc :=
  ⟨[.div (chars "Ratings for (5/1/2024)"),
    .htable { ths := [],
              trs := [⟨[], goodRow⟩, ⟨[chars "bottom-sort"], badRow⟩,
                      ⟨[], badRow⟩] }]⟩

/-- A daily page whose table has a single (malformed) row. -/
def exDocOneBad : Doc := ⟨[.htable { ths := [], trs := [⟨[], badRow⟩] }]⟩

/-- A daily page whose table has two rows, both malformed. -/
def exDocAllBad : Doc :=
  ⟨[.htable { ths := [], trs := [⟨[], badRow⟩, ⟨[], badRow⟩] }]⟩

/-- A page whose only heading reads `ratings history for apple`
(lower case) followed by a table: it contains the hint
`Ratings History` case-insensitively but not case-sensitively. -/
def exDocLower : Doc :=
  ⟨[.h2 (chars "ratings history for apple"),
    .htable { ths := [], trs := [⟨[], goodRow⟩] }]⟩

/-- A symbol-history page with a matching `Ratings History` heading. -/
def exDocHist : Doc :=
  ⟨[.h2 (chars "Analyst Ratings History for Apple"),
    .htable { ths := [], trs := [⟨[], goodRow⟩] }]⟩

/-- A symbol-history page with no heading matching any hint. -/
def exDocNoHead : Doc :=
  ⟨[.h2 (chars "Price Targets"),
    .htable { ths := [], trs := [⟨[], goodRow⟩] }]⟩

/-- A symbol-history page in which a table PRECEDES the only matching
heading and no table follows it. -/
def exDocTableBefore : Doc :=
  ⟨[.htable { ths := [], trs := [⟨[], goodRow⟩] },
    .h2 (chars "Analyst Ratings History"),
    .div (chars "About Apple")]⟩

/-- A stock-overview page carrying the `liAnalystRatings` link. -/
def exMainDoc : Doc :=
  ⟨[.li (chars "liAnalystRatings")
      [⟨some (chars "/stocks/NASDAQ/AAPL/price-target/"), chars "Analyst Ratings"⟩]]⟩

/-- Records with an underscore-bearing brokerage name, for the `uid`
escaping test. -/
def exRecsUid : List Rec :=
  [mkRec (chars "MSFT") (chars "2024-05-01") (chars "NASDAQ")
     (chars "Upgrade") (chars "A_B_Brokers") (chars "77")
     (.str (chars "Jane Roe")) ⟨1250, 2⟩ (chars "Buy") 3]

/-- A single-record list for the round-trip counterexample. -/
def exRecsRT : List Rec :=
  [mkRec (chars "AAPL") (chars "2024-05-01") (chars "NASDAQ")
     (chars "Boost") (chars "Morgan Stanley") (chars "morgan-stanley")
     .none ⟨1250, 2⟩ (chars "Overweight") 3]

/-- The frame built from `exRecsRT` (the first, successful run of the
Dataset Builder). -/
def exDfRT : DataFrame := (buildDataFrame exRecsRT).toOption.getD []

/-! ## General lemmas -/

theorem exceptBind_ok {α β : Type} {x : Except PyErr α} {f : α → Except PyErr β}
    {b : β} (h : x >>= f = .ok b) : ∃ a, x = .ok a ∧ f a = .ok b := by
  cases x with
  | error e =>
    simp only [Bind.bind, Except.bind] at h
    exact Except.noConfusion h
  | ok a => exact ⟨a, rfl, by simpa only [Bind.bind, Except.bind] using h⟩

theorem assembleRows_append (f : List Cell → Except PyErr Rec)
    (xs ys : List (List Cell)) :
    assembleRows f (xs ++ ys) = assembleRows f xs ++ assembleRows f ys := by
  induction xs with
  | nil => rfl
  | cons x xs ih =>
    simp only [List.cons_append, assembleRows]
    cases f x <;> simp [ih]

theorem assembleRows_error_cons (f : List Cell → Except PyErr Rec)
    (r : List Cell) (rest : List (List Cell)) (h : (f r).isOk = false) :
    assembleRows f (r :: rest) = assembleRows f rest := by
  simp only [assembleRows]
  cases hf : f r with
  | ok v => rw [hf] at h; simp [Except.isOk, Except.toBool] at h
  | error e => rfl

theorem assembleRows_length (f : List Cell → Except PyErr Rec)
    (rows : List (List Cell)) :
    (assembleRows f rows).length
      = (rows.filter (fun r => (f r).isOk)).length := by
  induction rows with
  | nil => rfl
  | cons r rest ih =>
    simp only [assembleRows, List.filter]
    cases hf : f r <;> simp [Except.isOk, Except.toBool, ih]

theorem assembleRows_mem (f : List Cell → Except PyErr Rec)
    (rows : List (List Cell)) (r : Rec) (h : r ∈ assembleRows f rows) :
    ∃ row ∈ rows, f row = .ok r := by
  induction rows with
  | nil => simp [assembleRows] at h
  | cons x rest ih =>
    simp only [assembleRows] at h
    cases hf : f x with
    | ok v =>
      rw [hf] at h
      rcases List.mem_cons.mp h with h | h
      · exact ⟨x, List.mem_cons_self x rest, by rw [hf, h]⟩
      · obtain ⟨row, hrow, hfr⟩ := ih h
        exact ⟨row, List.mem_cons_of_mem x hrow, hfr⟩
    | error e =>
      rw [hf] at h
      obtain ⟨row, hrow, hfr⟩ := ih h
      exact ⟨row, List.mem_cons_of_mem x hrow, hfr⟩

theorem processDailyRow_ok (date : Chars) (row : List Cell) (r : Rec)
    (h : processDailyRow date row = .ok r) :
    ∃ sym ex act br bc an pt rat rc,
      r = mkRec sym date ex act br bc an pt rat rc := by
  unfold processDailyRow at h
  obtain ⟨c0, -, h⟩ := exceptBind_ok h
  obtain ⟨x, -, h⟩ := exceptBind_ok h
  obtain ⟨sym, com, ex⟩ := x
  obtain ⟨c1, -, h⟩ := exceptBind_ok h
  obtain ⟨c2, -, h⟩ := exceptBind_ok h
  obtain ⟨y, -, h⟩ := exceptBind_ok h
  obtain ⟨br, bc⟩ := y
  obtain ⟨c3, -, h⟩ := exceptBind_ok h
  obtain ⟨c5, -, h⟩ := exceptBind_ok h
  obtain ⟨pt, -, h⟩ := exceptBind_ok h
  obtain ⟨c6, -, h⟩ := exceptBind_ok h
  obtain ⟨z, -, h⟩ := exceptBind_ok h
  obtain ⟨rat, rc⟩ := z
  simp only [pure, Except.pure, Except.ok.injEq] at h
  exact ⟨sym, ex, _, br, bc, _, pt, rat, rc, h.symm⟩

theorem processSymbolRow_ok (symbol exchange : Chars) (row : List Cell)
    (r : Rec) (h : processSymbolRow symbol exchange row = .ok r) :
    ∃ date act br bc an pt rat rc,
      r = mkRec symbol date exchange act br bc an pt rat rc := by
  unfold processSymbolRow at h
  obtain ⟨c0, -, h⟩ := exceptBind_ok h
  obtain ⟨date, -, h⟩ := exceptBind_ok h
  obtain ⟨c1, -, h⟩ := exceptBind_ok h
  obtain ⟨y, -, h⟩ := exceptBind_ok h
  obtain ⟨br, bc⟩ := y
  obtain ⟨c2, -, h⟩ := exceptBind_ok h
  obtain ⟨c3, -, h⟩ := exceptBind_ok h
  obtain ⟨c4, -, h⟩ := exceptBind_ok h
  obtain ⟨z, -, h⟩ := exceptBind_ok h
  obtain ⟨rat, rc⟩ := z
  obtain ⟨c5, -, h⟩ := exceptBind_ok h
  obtain ⟨pt, -, h⟩ := exceptBind_ok h
  simp only [pure, Except.pure, Except.ok.injEq] at h
  exact ⟨date, _, br, bc, _, pt, rat, rc, h.symm⟩

theorem mkRec_keys (sym date ex act br bc : Chars) (an : PyVal) (pt : DecNum)
    (rat : Chars) (rc : Int) :
    keysOf (mkRec sym date ex act br bc an pt rat rc) = recKeys := rfl

/-! ## DataFrame lemmas -/

theorem filter_true_of_nil (K : List Chars) :
    K.filter (fun k => ¬ k ∈ ([] : List Chars)) = K := by
  apply List.filter_eq_self.mpr
  intro a _
  simp

theorem collectFold_const (K : List Chars) (rest : List Rec)
    (h : ∀ r ∈ rest, keysOf r = K) :
    rest.foldl (fun acc r => acc ++ (keysOf r).filter (fun k => ¬ k ∈ acc)) K
      = K := by
  induction rest with
  | nil => rfl
  | cons r rest ih =>
    have h0 : keysOf r = K := h r (List.mem_cons_self r rest)
    have hstep : K ++ (keysOf r).filter (fun k => ¬ k ∈ K) = K := by
      rw [h0]
      have : K.filter (fun k => ¬ k ∈ K) = [] := by
        apply List.filter_eq_nil_iff.mpr
        intro a ha
        simp [ha]
      rw [this, List.append_nil]
    rw [List.foldl_cons, hstep]
    exact ih (fun r hr => h r (List.mem_cons_of_mem _ hr))

theorem collectCols_uniform (K : List Chars) (recs : List Rec)
    (hne : recs ≠ []) (hK : ∀ r ∈ recs, keysOf r = K) :
    collectCols recs = K := by
  cases recs with
  | nil => exact absurd rfl hne
  | cons r rest =>
    have h0 : keysOf r = K := hK r (List.mem_cons_self r rest)
    unfold collectCols
    rw [List.foldl_cons, List.nil_append, h0, filter_true_of_nil]
    exact collectFold_const K rest (fun r hr => hK r (List.mem_cons_of_mem _ hr))

theorem dfCol_of_map (K : List Chars) (g : Chars → List PyVal) (k : Chars)
    (hk : k ∈ K) :
    dfCol (K.map (fun c => (c, g c))) k = some (g k) := by
  induction K with
  | nil => simp at hk
  | cons a K ih =>
    by_cases hak : a = k
    · subst hak
      simp [dfCol, List.find?]
    · rcases List.mem_cons.mp hk with h | h
      · exact absurd h.symm hak
      · simpa [dfCol, List.find?, hak] using ih h

theorem dfCol_of_map_absent (K : List Chars) (g : Chars → List PyVal)
    (k : Chars) (hk : ¬ k ∈ K) :
    dfCol (K.map (fun c => (c, g c))) k = Option.none := by
  induction K with
  | nil => rfl
  | cons a K ih =>
    have hak : a ≠ k := fun h => hk (h ▸ List.mem_cons_self a K)
    have : ¬ k ∈ K := fun h => hk (List.mem_cons_of_mem _ h)
    simpa [dfCol, List.find?, hak] using ih this

theorem dfCols_of_map (K : List Chars) (g : Chars → List PyVal) :
    dfCols (K.map (fun c => (c, g c))) = K := by
  unfold dfCols
  rw [List.map_map]
  have hid : ((fun (p : Chars × List PyVal) => p.1) ∘ fun c => (c, g c))
      = fun c => c := rfl
  rw [hid]
  exact List.map_id' K

theorem joinUid_map (recs : List Rec) (f1 f2 f3 : Rec → PyVal) :
    joinUid (recs.map f1) (recs.map f2) (recs.map f3)
      = recs.map (fun r =>
          .str (pyStrOf (f1 r) ++ ['_'] ++ pyStrOf (f2 r) ++ ['_'] ++ pyStrOf (f3 r))) := by
  induction recs with
  | nil => rfl
  | cons r rest ih => simp [joinUid, ih]

/-- The per-column extraction function of `mkDataFrame` under a fixed
record list. -/
def colOf (recs : List Rec) (k : Chars) : List PyVal :=
  recs.map (fun r => (lookupRec r k).getD .none)

theorem buildDataFrame_ok_uniform (K : List Chars) (recs : List Rec)
    (hne : recs ≠ []) (hK : ∀ r ∈ recs, keysOf r = K)
    (hdate : chars "date" ∈ K) (hsym : chars "symbol" ∈ K)
    (hbrk : chars "brokerage" ∈ K) (huid : ¬ chars "uid" ∈ K) :
    buildDataFrame recs
      = .ok ((chars "uid",
              joinUid (colOf recs (chars "date")) (colOf recs (chars "symbol"))
                (colOf recs (chars "brokerage")))
             :: (K.filter (fun k => k ≠ chars "brokerage_code")).map
                  (fun k => (k, colOf recs k))) := by
  unfold buildDataFrame mkDataFrame
  rw [collectCols_uniform K recs hne hK]
  dsimp only
  rw [List.filter_map]
  have hcomp : ((fun (p : Chars × List PyVal) => decide (p.1 ≠ chars "brokerage_code"))
        ∘ (fun k => (k, recs.map (fun r => (lookupRec r k).getD .none))))
      = fun k => decide (k ≠ chars "brokerage_code") := rfl
  rw [hcomp]
  have hdate' : chars "date" ∈ K.filter (fun k => k ≠ chars "brokerage_code") :=
    List.mem_filter.mpr ⟨hdate, by decide⟩
  have hsym' : chars "symbol" ∈ K.filter (fun k => k ≠ chars "brokerage_code") :=
    List.mem_filter.mpr ⟨hsym, by decide⟩
  have hbrk' : chars "brokerage" ∈ K.filter (fun k => k ≠ chars "brokerage_code") :=
    List.mem_filter.mpr ⟨hbrk, by decide⟩
  rw [dfCol_of_map _ _ _ hdate', dfCol_of_map _ _ _ hsym', dfCol_of_map _ _ _ hbrk']
  dsimp only
  rw [dfCols_of_map]
  have huid' : ¬ chars "uid" ∈ K.filter (fun k => k ≠ chars "brokerage_code") :=
    fun h => huid (List.mem_filter.mp h).1
  rw [if_neg huid']
  rfl

theorem buildDataFrame_dup_uid (K : List Chars) (recs : List Rec)
    (hne : recs ≠ []) (hK : ∀ r ∈ recs, keysOf r = K)
    (hdate : chars "date" ∈ K) (hsym : chars "symbol" ∈ K)
    (hbrk : chars "brokerage" ∈ K) (huid : chars "uid" ∈ K) :
    buildDataFrame recs = .error .valueError := by
  unfold buildDataFrame mkDataFrame
  rw [collectCols_uniform K recs hne hK]
  dsimp only
  rw [List.filter_map]
  have hcomp : ((fun (p : Chars × List PyVal) => decide (p.1 ≠ chars "brokerage_code"))
        ∘ (fun k => (k, recs.map (fun r => (lookupRec r k).getD .none))))
      = fun k => decide (k ≠ chars "brokerage_code") := rfl
  rw [hcomp]
  have hdate' : chars "date" ∈ K.filter (fun k => k ≠ chars "brokerage_code") :=
    List.mem_filter.mpr ⟨hdate, by decide⟩
  have hsym' : chars "symbol" ∈ K.filter (fun k => k ≠ chars "brokerage_code") :=
    List.mem_filter.mpr ⟨hsym, by decide⟩
  have hbrk' : chars "brokerage" ∈ K.filter (fun k => k ≠ chars "brokerage_code") :=
    List.mem_filter.mpr ⟨hbrk, by decide⟩
  rw [dfCol_of_map _ _ _ hdate', dfCol_of_map _ _ _ hsym', dfCol_of_map _ _ _ hbrk']
  dsimp only
  rw [dfCols_of_map]
  have huid' : chars "uid" ∈ K.filter (fun k => k ≠ chars "brokerage_code") :=
    List.mem_filter.mpr ⟨huid, by decide⟩
  rw [if_pos huid']

theorem buildDataFrame_nil : buildDataFrame [] = .error .keyError := rfl

theorem dfCol_cons_ne (a : Chars × List PyVal) (df : DataFrame) (k : Chars)
    (h : ¬ a.1 = k) : dfCol (a :: df) k = dfCol df k := by
  simp [dfCol, List.find?, h]

theorem dfCol_cons_self (a : Chars × List PyVal) (df : DataFrame) :
    dfCol (a :: df) a.1 = some a.2 := by
  simp [dfCol, List.find?]

theorem mkRec_lookup_date (sym date ex act br bc : Chars) (an : PyVal)
    (pt : DecNum) (rat : Chars) (rc : Int) :
    lookupRec (mkRec sym date ex act br bc an pt rat rc) (chars "date")
      = some (.str date) := rfl

theorem mkRec_lookup_symbol (sym date ex act br bc : Chars) (an : PyVal)
    (pt : DecNum) (rat : Chars) (rc : Int) :
    lookupRec (mkRec sym date ex act br bc an pt rat rc) (chars "symbol")
      = some (.str sym) := rfl

theorem mkRec_lookup_brokerage (sym date ex act br bc : Chars) (an : PyVal)
    (pt : DecNum) (rat : Chars) (rc : Int) :
    lookupRec (mkRec sym date ex act br bc an pt rat rc) (chars "brokerage")
      = some (.str br) := rfl

/-! ## Workflow plumbing lemmas -/

theorem getDaily_eq (doc : Doc) (today : Chars) (hdr : List Cell)
    (data : List (List Cell)) (date : Chars)
    (hrt : readTable doc Option.none = .ok (hdr, data))
    (hrd : resolveDailyDate doc today = .ok date) :
    getDailyRatingsTable doc today
      = buildDataFrame (assembleRows (processDailyRow date) data) := by
  unfold getDailyRatingsTable
  rw [hrt]
  simp only [Bind.bind, Except.bind]
  rw [hrd]

theorem getDaily_readTable_error (doc : Doc) (today : Chars) (e : PyErr)
    (hrt : readTable doc Option.none = .error e) :
    getDailyRatingsTable doc today = .error e := by
  unfold getDailyRatingsTable
  rw [hrt]
  rfl

theorem getDaily_date_error (doc : Doc) (today : Chars) (hdr : List Cell)
    (data : List (List Cell)) (e : PyErr)
    (hrt : readTable doc Option.none = .ok (hdr, data))
    (hrd : resolveDailyDate doc today = .error e) :
    getDailyRatingsTable doc today = .error e := by
  unfold getDailyRatingsTable
  rw [hrt]
  simp only [Bind.bind, Except.bind]
  rw [hrd]

theorem getSymbol_eq (symbol : Chars) (mainDoc ratingsDoc : Doc)
    (href exchange : Chars) (hdr : List Cell) (data : List (List Cell))
    (hh : analystRatingsHref mainDoc = .ok href)
    (hx : stocksExchange href = .ok exchange)
    (hrt : readTable ratingsDoc (some (chars "Ratings History")) = .ok (hdr, data)) :
    getSymbolRatingsTable symbol mainDoc ratingsDoc
      = buildDataFrame (assembleRows (processSymbolRow symbol exchange) data) := by
  unfold getSymbolRatingsTable
  rw [hh]
  simp only [Bind.bind, Except.bind]
  rw [hx]
  simp only [Bind.bind, Except.bind]
  rw [hrt]

theorem getSymbol_readTable_error (symbol : Chars) (mainDoc ratingsDoc : Doc)
    (href exchange : Chars) (e : PyErr)
    (hh : analystRatingsHref mainDoc = .ok href)
    (hx : stocksExchange href = .ok exchange)
    (hrt : readTable ratingsDoc (some (chars "Ratings History")) = .error e) :
    getSymbolRatingsTable symbol mainDoc ratingsDoc = .error e := by
  unfold getSymbolRatingsTable
  rw [hh]
  simp only [Bind.bind, Except.bind]
  rw [hx]
  simp only [Bind.bind, Except.bind]
  rw [hrt]

theorem daily_survivors_shape (date : Chars) (data : List (List Cell)) :
    ∀ r ∈ assembleRows (processDailyRow date) data,
      keysOf r = recKeys ∧ lookupRec r (chars "date") = some (.str date) := by
  intro r hr
  obtain ⟨row, -, hok⟩ := assembleRows_mem _ _ _ hr
  obtain ⟨sym, ex, act, br, bc, an, pt, rat, rc, rfl⟩ :=
    processDailyRow_ok date row r hok
  exact ⟨rfl, rfl⟩

/-! ## String lemmas for the arrow-split parsers -/

theorem takeWhile_append_of_pos (p : Char → Bool) (l1 l2 : Chars)
    (h : ∀ x ∈ l1, p x = true) :
    (l1 ++ l2).takeWhile p = l1 ++ l2.takeWhile p := by
  induction l1 with
  | nil => rfl
  | cons a l1 ih =>
    have ha : p a = true := h a (List.mem_cons_self a l1)
    simp only [List.cons_append, List.takeWhile_cons, ha, if_true]
    rw [ih (fun x hx => h x (List.mem_cons_of_mem _ hx))]

theorem afterLast_split (c : Char) (p s : Chars) (h : ¬ c ∈ s) :
    afterLast c (p ++ c :: s) = s := by
  unfold afterLast
  rw [List.reverse_append, List.reverse_cons]
  have hall : ∀ x ∈ s.reverse, (fun x => decide (x ≠ c)) x = true := by
    intro x hx
    have : x ∈ s := List.mem_reverse.mp hx
    simp only [decide_eq_true_eq]
    exact fun hxc => h (hxc ▸ this)
  rw [List.append_assoc, takeWhile_append_of_pos _ _ _ hall]
  simp [List.takeWhile_cons]

theorem afterLast_absent (c : Char) (s : Chars) (h : ¬ c ∈ s) :
    afterLast c s = s := by
  unfold afterLast
  have hall : ∀ x ∈ s.reverse, (fun x => decide (x ≠ c)) x = true := by
    intro x hx
    have : x ∈ s := List.mem_reverse.mp hx
    simp only [decide_eq_true_eq]
    exact fun hxc => h (hxc ▸ this)
  rw [List.takeWhile_eq_self_iff.mpr hall, List.reverse_reverse]

/-! ## Table Locator lemmas -/

theorem firstTableIn_spec (nodes : List Node) (k : Nat) (t : HTable)
    (hk : nodes.get? k = some (.htable t))
    (hmin : ∀ j, j < k → ∀ t', nodes.get? j ≠ some (.htable t')) :
    firstTableIn nodes = some t := by
  induction nodes generalizing k with
  | nil => simp at hk
  | cons n rest ih =>
    cases k with
    | zero =>
      have hn : n = .htable t := by simpa [List.get?] using hk
      subst hn
      rfl
    | succ k =>
      have hget : rest.get? k = some (.htable t) := hk
      have hmin' : ∀ j, j < k → ∀ t', rest.get? j ≠ some (.htable t') :=
        fun j hj t' => hmin (j + 1) (Nat.succ_lt_succ hj) t'
      have hhead : ∀ t', n ≠ .htable t' := by
        intro t' hn
        exact hmin 0 (Nat.succ_pos k) t' (by simp [List.get?, hn])
      cases n with
      | htable t' => exact absurd rfl (hhead t')
      | h2 s => exact ih k hget hmin'
      | div s => exact ih k hget hmin'
      | li i a => exact ih k hget hmin'
      | other => exact ih k hget hmin'

theorem firstTableIn_none (nodes : List Node)
    (h : ∀ t', ¬ (Node.htable t') ∈ nodes) :
    firstTableIn nodes = Option.none := by
  induction nodes with
  | nil => rfl
  | cons n rest ih =>
    have hrest : ∀ t', ¬ (Node.htable t') ∈ rest :=
      fun t' hmem => h t' (List.mem_cons_of_mem _ hmem)
    cases n with
    | htable t' => exact absurd (List.mem_cons_self _ rest) (h t')
    | h2 s => exact ih hrest
    | div s => exact ih hrest
    | li i a => exact ih hrest
    | other => exact ih hrest

theorem firstTableIn_none_at (nodes : List Node)
    (h : ∀ j t', nodes.get? j ≠ some (.htable t')) :
    firstTableIn nodes = Option.none := by
  induction nodes with
  | nil => rfl
  | cons n rest ih =>
    have hrest : ∀ j t', rest.get? j ≠ some (.htable t') :=
      fun j t' => h (j + 1) t'
    cases hn : n with
    | htable t' =>
      exact absurd (by simp [List.get?, hn]) (h 0 t')
    | h2 s => exact ih hrest
    | div s => exact ih hrest
    | li i a => exact ih hrest
    | other => exact ih hrest

theorem tableAfterH2_no_follow (s : Chars) (nodes : List Node) (i : Nat)
    (ti : Chars)
    (hi : nodes.get? i = some (.h2 ti)) (hmatch : strHas s ti = true)
    (hfirst : ∀ j, j < i → ∀ t', nodes.get? j = some (.h2 t') →
      strHas s t' = false)
    (hafter : ∀ j, i < j → ∀ t', nodes.get? j ≠ some (.htable t')) :
    tableAfterH2 s nodes = Option.none := by
  induction nodes generalizing i with
  | nil => simp at hi
  | cons n rest ih =>
    cases i with
    | zero =>
      have hn : n = .h2 ti := by simpa [List.get?] using hi
      subst hn
      simp only [tableAfterH2, hmatch, if_true]
      exact firstTableIn_none_at rest
        (fun j t' => hafter (j + 1) (Nat.succ_pos j) t')
    | succ i =>
      have hrec := ih i hi
        (fun j hj t' hg => hfirst (j + 1) (Nat.succ_lt_succ hj) t' hg)
        (fun j hj t' => hafter (j + 1) (Nat.succ_lt_succ hj) t')
      cases hn : n with
      | h2 t' =>
        have hfail : strHas s t' = false :=
          hfirst 0 (Nat.succ_pos i) t' (by simp [List.get?, hn])
        simpa [tableAfterH2, hfail] using hrec
      | htable t'' => simpa [tableAfterH2] using hrec
      | div t'' => simpa [tableAfterH2] using hrec
      | li a b => simpa [tableAfterH2] using hrec
      | other => simpa [tableAfterH2] using hrec

theorem tableAfterH2_spec (s : Chars) (nodes : List Node) (i k : Nat)
    (ti : Chars) (t : HTable)
    (hi : nodes.get? i = some (.h2 ti)) (hmatch : strHas s ti = true)
    (hfirst : ∀ j, j < i → ∀ t', nodes.get? j = some (.h2 t') →
      strHas s t' = false)
    (hik : i < k) (hk : nodes.get? k = some (.htable t))
    (hbetween : ∀ j, i < j → j < k → ∀ t',
      nodes.get? j ≠ some (.htable t')) :
    tableAfterH2 s nodes = some t := by
  induction nodes generalizing i k with
  | nil => simp at hi
  | cons n rest ih =>
    cases i with
    | zero =>
      have hn : n = .h2 ti := by simpa [List.get?] using hi
      subst hn
      simp only [tableAfterH2, hmatch, if_true]
      cases k with
      | zero => exact absurd hik (Nat.lt_irrefl 0)
      | succ k =>
        exact firstTableIn_spec rest k t hk
          (fun j hj t' => hbetween (j + 1) (Nat.succ_pos j)
            (Nat.succ_lt_succ hj) t')
    | succ i =>
      cases k with
      | zero => exact absurd hik (Nat.not_lt_zero _)
      | succ k =>
        have hrec := ih i k hi
          (fun j hj t' hg => hfirst (j + 1) (Nat.succ_lt_succ hj) t' hg)
          (Nat.lt_of_succ_lt_succ hik) hk
          (fun j hj1 hj2 t' => hbetween (j + 1) (Nat.succ_lt_succ hj1)
            (Nat.succ_lt_succ hj2) t')
        cases hn : n with
        | h2 t' =>
          have hfail : strHas s t' = false :=
            hfirst 0 (Nat.succ_pos i) t' (by simp [List.get?, hn])
          simpa [tableAfterH2, hfail] using hrec
        | htable t'' => simpa [tableAfterH2] using hrec
        | div t'' => simpa [tableAfterH2] using hrec
        | li a b => simpa [tableAfterH2] using hrec
        | other => simpa [tableAfterH2] using hrec

theorem tableAfterH2_no_match (s : Chars) (nodes : List Node)
    (h : ∀ j t', nodes.get? j = some (.h2 t') → strHas s t' = false) :
    tableAfterH2 s nodes = Option.none := by
  induction nodes with
  | nil => rfl
  | cons n rest ih =>
    have hrest : ∀ j t', rest.get? j = some (.h2 t') → strHas s t' = false :=
      fun j t' hg => h (j + 1) t' hg
    cases hn : n with
    | h2 t' =>
      have hfail : strHas s t' = false := h 0 t' (by simp [List.get?, hn])
      simpa [tableAfterH2, hfail] using ih hrest
    | htable t'' => simpa [tableAfterH2] using ih hrest
    | div t'' => simpa [tableAfterH2] using ih hrest
    | li a b => simpa [tableAfterH2] using ih hrest
    | other => simpa [tableAfterH2] using ih hrest

/-! ## Claim theorems -/

theorem dfCols_cons (a : Chars × List PyVal) (df : DataFrame) :
    dfCols (a :: df) = a.1 :: dfCols df := rfl

theorem nRows_cons (a : Chars × List PyVal) (df : DataFrame) :
    nRows (a :: df) = a.2.length := rfl

/-- C2 (confirmed): for every record handed to the Dataset Builder, the
derived `uid` is the stringified `date`, `symbol` and `brokerage` values
joined by `_` in that order (no escaping), and `uid` is inserted as the
first column of the emitted schema. -/
theorem uid_composition (recs : List Rec) (hne : recs ≠ [])
    (hK : ∀ r ∈ recs, keysOf r = recKeys) :
    ∃ df, buildDataFrame recs = .ok df
      ∧ dfCols df = chars "uid"
          :: recKeys.filter (fun k => k ≠ chars "brokerage_code")
      ∧ dfCol df (chars "uid") = some (recs.map (fun r =>
          .str (pyStrOf ((lookupRec r (chars "date")).getD .none) ++ ['_']
            ++ pyStrOf ((lookupRec r (chars "symbol")).getD .none) ++ ['_']
            ++ pyStrOf ((lookupRec r (chars "brokerage")).getD .none)))) := by
  have hbuild := buildDataFrame_ok_uniform recKeys recs hne hK
    (by decide) (by decide) (by decide) (by decide)
  refine ⟨_, hbuild, ?_, ?_⟩
  · rw [dfCols_cons, dfCols_of_map]
  · rw [dfCol_cons_self]
    unfold colOf
    rw [joinUid_map]

/-- Witness for C2: a record whose brokerage name `A_B_Brokers` itself
contains underscores yields the unescaped
`2024-05-01_MSFT_A_B_Brokers`. -/
theorem uid_composition_witness :
    (∃ df, buildDataFrame exRecsUid = .ok df
      ∧ dfCols df = chars "uid"
          :: recKeys.filter (fun k => k ≠ chars "brokerage_code")
      ∧ dfCol df (chars "uid") = some (exRecsUid.map (fun r =>
          .str (pyStrOf ((lookupRec r (chars "date")).getD .none) ++ ['_']
            ++ pyStrOf ((lookupRec r (chars "symbol")).getD .none) ++ ['_']
            ++ pyStrOf ((lookupRec r (chars "brokerage")).getD .none)))))
    ∧ exRecsUid.map (fun r =>
          PyVal.str (pyStrOf ((lookupRec r (chars "date")).getD .none) ++ ['_']
            ++ pyStrOf ((lookupRec r (chars "symbol")).getD .none) ++ ['_']
            ++ pyStrOf ((lookupRec r (chars "brokerage")).getD .none)))
        = [.str (chars "2024-05-01_MSFT_A_B_Brokers")] :=
  ⟨uid_composition exRecsUid (by decide) (by decide), by decide⟩

/-- C1 (corrected): row-failure isolation.  A failing row is omitted and
the others are processed in order, the output has one record per
non-failing row, and the Dataset is built successfully — PROVIDED at
least one row survives.  (The original claim fails in the degenerate
case where no row survives: the Dataset Builder then raises on the empty
record list, see the counterexample.) -/
theorem row_isolation (date : Chars) (pre post : List (List Cell))
    (bad : List Cell) (hbad : (processDailyRow date bad).isOk = false) :
    assembleRows (processDailyRow date) (pre ++ bad :: post)
      = assembleRows (processDailyRow date) pre
        ++ assembleRows (processDailyRow date) post
    ∧ (assembleRows (processDailyRow date) (pre ++ bad :: post)).length
      = ((pre ++ bad :: post).filter
          (fun r => (processDailyRow date r).isOk)).length
    ∧ (assembleRows (processDailyRow date) (pre ++ post) ≠ [] →
      ∃ df, buildDataFrame
          (assembleRows (processDailyRow date) (pre ++ bad :: post)) = .ok df
        ∧ nRows df
            = (assembleRows (processDailyRow date) (pre ++ post)).length) := by
  have hsplit : assembleRows (processDailyRow date) (pre ++ bad :: post)
      = assembleRows (processDailyRow date) pre
        ++ assembleRows (processDailyRow date) post := by
    rw [assembleRows_append, assembleRows_error_cons _ bad post hbad]
  refine ⟨hsplit, assembleRows_length _ _, fun hne => ?_⟩
  rw [hsplit, ← assembleRows_append]
  have hkeys : ∀ r ∈ assembleRows (processDailyRow date) (pre ++ post),
      keysOf r = recKeys :=
    fun r hr => (daily_survivors_shape date (pre ++ post) r hr).1
  have hbuild := buildDataFrame_ok_uniform recKeys _ hne hkeys
    (by decide) (by decide) (by decide) (by decide)
  refine ⟨_, hbuild, ?_⟩
  rw [nRows_cons]
  unfold colOf
  rw [joinUid_map, List.length_map]

/-- Witness for C1: a batch of one good and one malformed row keeps
exactly the good row and builds a one-row Dataset. -/
theorem row_isolation_witness :
    assembleRows (processDailyRow (chars "2024-05-01"))
        ([goodRow] ++ badRow :: [])
      = assembleRows (processDailyRow (chars "2024-05-01")) [goodRow]
        ++ assembleRows (processDailyRow (chars "2024-05-01")) []
    ∧ ∃ df, buildDataFrame (assembleRows (processDailyRow (chars "2024-05-01"))
          ([goodRow] ++ badRow :: [])) = .ok df
        ∧ nRows df = (assembleRows (processDailyRow (chars "2024-05-01"))
            ([goodRow] ++ [])).length := by
  have h := row_isolation (chars "2024-05-01") [goodRow] [] badRow rfl
  exact ⟨h.1, h.2.2 (by decide)⟩

/-- Counterexample for C1 as stated: a batch whose single row is
malformed.  The claim demands a Dataset with zero records; the code
instead aborts — the empty record list reaches the Dataset Builder,
whose column selection raises `KeyError`. -/
theorem row_isolation_counterexample :
    (processDailyRow (chars "2024-06-01") badRow).isOk = false
    ∧ (readTable exDocOneBad Option.none).isOk = true
    ∧ getDailyRatingsTable exDocOneBad (chars "2024-06-01")
        = .error .keyError :=
  ⟨rfl, rfl, rfl⟩

/-- C5 (corrected): daily-workflow outcome.  The workflow propagates the
locator failure; otherwise it returns a Dataset exactly when (a) the
page's free-text date marker, if present, is a valid calendar date, and
(b) at least one row survives row assembly.  (The original claim — never
failing once the table is located, even with every row dropped — is
refuted by the counterexample: an all-malformed batch makes the Dataset
Builder raise `KeyError`.) -/
theorem daily_outcome (doc : Doc) (today : Chars) :
    (∀ e, readTable doc Option.none = .error e →
      getDailyRatingsTable doc today = .error e)
    ∧ (∀ hdr data e, readTable doc Option.none = .ok (hdr, data) →
      resolveDailyDate doc today = .error e →
      getDailyRatingsTable doc today = .error e)
    ∧ (∀ hdr data date, readTable doc Option.none = .ok (hdr, data) →
      resolveDailyDate doc today = .ok date →
      (assembleRows (processDailyRow date) data = [] →
        getDailyRatingsTable doc today = .error .keyError)
      ∧ (assembleRows (processDailyRow date) data ≠ [] →
        ∃ df, getDailyRatingsTable doc today = .ok df)) := by
  refine ⟨fun e h => getDaily_readTable_error doc today e h,
    fun hdr data e h1 h2 => getDaily_date_error doc today hdr data e h1 h2,
    fun hdr data date h1 h2 => ⟨fun hempty => ?_, fun hne => ?_⟩⟩
  · rw [getDaily_eq doc today hdr data date h1 h2, hempty, buildDataFrame_nil]
  · rw [getDaily_eq doc today hdr data date h1 h2]
    have hkeys : ∀ r ∈ assembleRows (processDailyRow date) data,
        keysOf r = recKeys :=
      fun r hr => (daily_survivors_shape date data r hr).1
    exact ⟨_, buildDataFrame_ok_uniform recKeys _ hne hkeys
      (by decide) (by decide) (by decide) (by decide)⟩

/-- Witness for C5: the fixture page (table located, date marker found,
one surviving row) yields a Dataset. -/
theorem daily_outcome_witness :
    ∃ df, getDailyRatingsTable exDoc (chars "2024-06-01") = .ok df :=
  ((daily_outcome exDoc (chars "2024-06-01")).2.2 [] [goodRow, badRow]
    (chars "2024-05-01") rfl rfl).2 (by decide)

/-- Counterexample for C5 as stated: a located table whose rows are all
malformed.  The claim says the workflow must still return a (empty)
Dataset; the code fails with `KeyError`. -/
theorem daily_outcome_counterexample :
    (readTable exDocAllBad Option.none).isOk = true
    ∧ getDailyRatingsTable exDocAllBad (chars "2024-06-01")
        = .error .keyError :=
  ⟨rfl, rfl⟩

/-- C8 (confirmed): the daily workflow resolves exactly one date for the
whole batch — the first parenthesised `m/d/yyyy` pattern found in a
`div`'s free text, converted to ISO, or the supplied current date when no
such pattern exists — and every record of the returned Dataset carries
that date. -/
theorem daily_single_date (doc : Doc) (today : Chars) :
    (doc.nodes.findSome? divDateScan = Option.none →
      resolveDailyDate doc today = .ok today)
    ∧ (∀ m d y iso, doc.nodes.findSome? divDateScan = some (m, d, y) →
      toISO m d y = some iso → resolveDailyDate doc today = .ok iso)
    ∧ (∀ date df, resolveDailyDate doc today = .ok date →
      getDailyRatingsTable doc today = .ok df →
      ∃ vs, dfCol df (chars "date") = some vs ∧ ∀ v ∈ vs, v = .str date) := by
  refine ⟨fun h => ?_, fun m d y iso h1 h2 => ?_, fun date df h1 h2 => ?_⟩
  · unfold resolveDailyDate
    rw [h]
  · unfold resolveDailyDate
    rw [h1]
    dsimp only
    rw [h2]
  · cases hrt : readTable doc Option.none with
    | error e =>
      rw [getDaily_readTable_error doc today e hrt] at h2
      exact Except.noConfusion h2
    | ok pair =>
      obtain ⟨hdr, data⟩ := pair
      rw [getDaily_eq doc today hdr data date hrt h1] at h2
      by_cases hne : assembleRows (processDailyRow date) data = []
      · rw [hne, buildDataFrame_nil] at h2
        exact Except.noConfusion h2
      · have hkeys : ∀ r ∈ assembleRows (processDailyRow date) data,
            keysOf r = recKeys :=
          fun r hr => (daily_survivors_shape date data r hr).1
        have hbuild := buildDataFrame_ok_uniform recKeys _ hne hkeys
          (by decide) (by decide) (by decide) (by decide)
        rw [hbuild] at h2
        have hdf : df = (chars "uid",
            joinUid (colOf (assembleRows (processDailyRow date) data) (chars "date"))
              (colOf (assembleRows (processDailyRow date) data) (chars "symbol"))
              (colOf (assembleRows (processDailyRow date) data) (chars "brokerage")))
            :: (recKeys.filter (fun k => k ≠ chars "brokerage_code")).map
              (fun k => (k, colOf (assembleRows (processDailyRow date) data) k)) := by
          have := Except.ok.inj h2
          exact this.symm
        subst hdf
        refine ⟨colOf (assembleRows (processDailyRow date) data) (chars "date"),
          ?_, ?_⟩
        · rw [dfCol_cons_ne _ _ _ (show ¬ chars "uid" = chars "date" by decide)]
          exact dfCol_of_map _ _ _ (show chars "date"
            ∈ recKeys.filter (fun k => k ≠ chars "brokerage_code") by decide)
        · intro v hv
          obtain ⟨r, hr, hrv⟩ := List.mem_map.mp hv
          rw [← hrv, (daily_survivors_shape date data r hr).2]
          rfl

/-- Witness for C8: on the fixture page the marker `(5/1/2024)` resolves
to `2024-05-01` and the built Dataset's date column carries exactly that
value; on a page with no marker the supplied current date is used. -/
theorem daily_single_date_witness :
    (∃ vs, dfCol ((getDailyRatingsTable exDoc (chars "2024-06-01")).toOption.getD [])
        (chars "date") = some vs
      ∧ ∀ v ∈ vs, v = .str (chars "2024-05-01"))
    ∧ resolveDailyDate exDocAllBad (chars "2024-06-01")
        = .ok (chars "2024-06-01") := by
  constructor
  · exact (daily_single_date exDoc (chars "2024-06-01")).2.2
      (chars "2024-05-01")
      ((getDailyRatingsTable exDoc (chars "2024-06-01")).toOption.getD [])
      rfl rfl
  · exact (daily_single_date exDocAllBad (chars "2024-06-01")).1 rfl

theorem lookupRec_rowAt (df : DataFrame) (i : Nat) (k : Chars) :
    lookupRec (df.map (fun c => (c.1, (c.2.get? i).getD PyVal.none))) k
      = (dfCol df k).map (fun vs => (vs.get? i).getD PyVal.none) := by
  unfold lookupRec dfCol
  rw [List.find?_map]
  have hp : ((fun (p : Chars × PyVal) => decide (p.1 = k))
      ∘ (fun (c : Chars × List PyVal) => (c.1, (c.2.get? i).getD PyVal.none)))
      = fun (c : Chars × List PyVal) => decide (c.1 = k) := rfl
  rw [hp]
  cases df.find? (fun c => decide (c.1 = k)) <;> rfl

theorem keysOf_rowAt (df : DataFrame) (i : Nat) :
    keysOf (df.map (fun c => (c.1, (c.2.get? i).getD PyVal.none)))
      = dfCols df := by
  unfold keysOf dfCols
  rw [List.map_map]
  rfl

/-- C9 (corrected): the Dataset Builder round trip is NOT idempotent.
On any successful build, `brokerage_code` is absent from the emitted
schema and every emitted record's `uid` equals the join recomputed from
its own `date`/`symbol`/`brokerage` fields (so a second run would
recompute identical uid values) — but re-running the builder on the
already-built record list fails with `ValueError`, because inserting
`uid` is refused when a `uid` column already exists.  (The second run
also demonstrates that the `brokerage_code` drop tolerates the field's
absence: the rebuilt records lack it and the drop step still passes.) -/
theorem rebuild_not_idempotent (recs : List Rec) (hne : recs ≠ [])
    (hK : ∀ r ∈ recs, keysOf r = recKeys) (df : DataFrame)
    (hbuild : buildDataFrame recs = .ok df) :
    ¬ chars "brokerage_code" ∈ dfCols df
    ∧ (∀ r ∈ dfRecords df, lookupRec r (chars "uid")
        = some (.str (pyStrOf ((lookupRec r (chars "date")).getD .none) ++ ['_']
          ++ pyStrOf ((lookupRec r (chars "symbol")).getD .none) ++ ['_']
          ++ pyStrOf ((lookupRec r (chars "brokerage")).getD .none))))
    ∧ buildDataFrame (dfRecords df) = .error .valueError := by
  have hb := buildDataFrame_ok_uniform recKeys recs hne hK
    (by decide) (by decide) (by decide) (by decide)
  rw [hb] at hbuild
  have hdfeq := Except.ok.inj hbuild
  subst hdfeq
  have hJ : joinUid (colOf recs (chars "date")) (colOf recs (chars "symbol"))
      (colOf recs (chars "brokerage"))
      = recs.map (fun r =>
          PyVal.str (pyStrOf ((lookupRec r (chars "date")).getD .none) ++ ['_']
            ++ pyStrOf ((lookupRec r (chars "symbol")).getD .none) ++ ['_']
            ++ pyStrOf ((lookupRec r (chars "brokerage")).getD .none))) := by
    unfold colOf
    rw [joinUid_map]
  have hn : nRows ((chars "uid",
      joinUid (colOf recs (chars "date")) (colOf recs (chars "symbol"))
        (colOf recs (chars "brokerage")))
      :: (recKeys.filter (fun k => k ≠ chars "brokerage_code")).map
          (fun k => (k, colOf recs k))) = recs.length := by
    rw [nRows_cons, hJ, List.length_map]
  have hcols : dfCols ((chars "uid",
      joinUid (colOf recs (chars "date")) (colOf recs (chars "symbol"))
        (colOf recs (chars "brokerage")))
      :: (recKeys.filter (fun k => k ≠ chars "brokerage_code")).map
          (fun k => (k, colOf recs k)))
      = chars "uid" :: recKeys.filter (fun k => k ≠ chars "brokerage_code") := by
    rw [dfCols_cons, dfCols_of_map]
  refine ⟨?_, ?_, ?_⟩
  · rw [hcols]
    decide
  · intro r hr
    obtain ⟨i, hi, hrw⟩ := List.mem_map.mp hr
    have hilt : i < recs.length := by
      have := List.mem_range.mp hi
      rw [hn] at this
      exact this
    subst hrw
    rw [lookupRec_rowAt, lookupRec_rowAt, lookupRec_rowAt, lookupRec_rowAt]
    rw [dfCol_cons_self]
    rw [dfCol_cons_ne _ _ _ (show ¬ chars "uid" = chars "date" by decide),
      dfCol_of_map _ _ _ (show chars "date"
        ∈ recKeys.filter (fun k => k ≠ chars "brokerage_code") by decide)]
    rw [dfCol_cons_ne _ _ _ (show ¬ chars "uid" = chars "symbol" by decide),
      dfCol_of_map _ _ _ (show chars "symbol"
        ∈ recKeys.filter (fun k => k ≠ chars "brokerage_code") by decide)]
    rw [dfCol_cons_ne _ _ _ (show ¬ chars "uid" = chars "brokerage" by decide),
      dfCol_of_map _ _ _ (show chars "brokerage"
        ∈ recKeys.filter (fun k => k ≠ chars "brokerage_code") by decide)]
    rw [hJ]
    unfold colOf
    dsimp only [Option.map, Option.getD]
    rw [List.get?_map, List.get?_map, List.get?_map, List.get?_map]
    cases hg : recs.get? i with
    | none =>
      have := List.get?_eq_none.mp hg
      omega
    | some r0 => rfl
  · apply buildDataFrame_dup_uid
      (chars "uid" :: recKeys.filter (fun k => k ≠ chars "brokerage_code"))
    · unfold dfRecords
      rw [hn]
      intro hcontra
      have : recs.length = 0 := by
        have hlen := congrArg List.length hcontra
        simpa using hlen
      exact hne (List.length_eq_zero.mp this)
    · intro r hr
      obtain ⟨i, hi, hrw⟩ := List.mem_map.mp hr
      subst hrw
      rw [keysOf_rowAt, hcols]
    · decide
    · decide
    · decide
    · decide

/-- Witness for C9 (amended): the concrete one-record build succeeds,
drops `brokerage_code`, stores the expected `uid`, and the rebuild of
its own output fails with `ValueError`. -/
theorem rebuild_not_idempotent_witness :
    (¬ chars "brokerage_code" ∈ dfCols exDfRT
      ∧ (∀ r ∈ dfRecords exDfRT, lookupRec r (chars "uid")
          = some (.str (pyStrOf ((lookupRec r (chars "date")).getD .none) ++ ['_']
            ++ pyStrOf ((lookupRec r (chars "symbol")).getD .none) ++ ['_']
            ++ pyStrOf ((lookupRec r (chars "brokerage")).getD .none))))
      ∧ buildDataFrame (dfRecords exDfRT) = .error .valueError) :=
  rebuild_not_idempotent exRecsRT (by decide) (by decide) exDfRT rfl

/-- Counterexample for C9 as stated: re-running the Dataset Builder on
the record list read back from a successfully built Dataset does not
reproduce the Dataset — it raises (`DataFrame.insert` refuses the
existing `uid` column), so the round trip is not idempotent. -/
theorem rebuild_counterexample :
    buildDataFrame exRecsRT = .ok exDfRT
    ∧ buildDataFrame (dfRecords exDfRT) = .error .valueError :=
  ⟨rfl, rfl⟩

/-- C4 (corrected): table selection.  With no heading hint the locator
selects the first table in the document; with a hint it selects the
nearest table following the first `h2` heading whose text contains the
hint — but the containment is CASE-SENSITIVE (the source builds
`re.compile('.*hint.*')` with no `IGNORECASE` flag), not case-insensitive
as claimed; position-insensitivity holds. -/
theorem table_selection (doc : Doc) :
    (∀ k t, doc.nodes.get? k = some (.htable t) →
      (∀ j, j < k → ∀ t', doc.nodes.get? j ≠ some (.htable t')) →
      readTable doc Option.none = .ok (t.ths, cleanRows t))
    ∧ (∀ s i k ti t, doc.nodes.get? i = some (.h2 ti) →
      strHas s ti = true →
      (∀ j, j < i → ∀ t', doc.nodes.get? j = some (.h2 t') →
        strHas s t' = false) →
      i < k → doc.nodes.get? k = some (.htable t) →
      (∀ j, i < j → j < k → ∀ t', doc.nodes.get? j ≠ some (.htable t')) →
      readTable doc (some s) = .ok (t.ths, cleanRows t)) := by
  constructor
  · intro k t hk hmin
    unfold readTable
    rw [firstTableIn_spec doc.nodes k t hk hmin]
  · intro s i k ti t hi hmatch hfirst hik hk hbetween
    unfold readTable
    dsimp only
    rw [tableAfterH2_spec s doc.nodes i k ti t hi hmatch hfirst hik hk hbetween]

/-- Witness for C4 (amended): on a page with a junk node, a heading
`Analyst Ratings History for Apple` and a following table, the hint
`Ratings History` (contained mid-text, case-sensitively) selects that
table; on the same page without a hint the first table is selected. -/
theorem table_selection_witness :
    readTable exDocHist (some (chars "Ratings History"))
      = .ok ([], [goodRow])
    ∧ readTable exDocHist Option.none = .ok ([], [goodRow]) := by
  constructor
  · exact (table_selection exDocHist).2 (chars "Ratings History") 0 1
      (chars "Analyst Ratings History for Apple")
      { ths := [], trs := [⟨[], goodRow⟩] }
      rfl (by decide) (by intro j hj; omega) (by decide) rfl
      (by intro j hj1 hj2; omega)
  · exact (table_selection exDocHist).1 1
      { ths := [], trs := [⟨[], goodRow⟩] }
      rfl (by intro j hj t' hg; interval_cases j; simp [List.get?] at hg ⊢)

/-- Counterexample for C4 as stated: the heading
`ratings history for apple` contains the hint `Ratings History`
case-insensitively and is followed by a table, yet the locator finds
nothing (case-sensitive matching), instead of selecting that table. -/
theorem table_selection_ci_counterexample :
    ciHas (chars "Ratings History") (chars "ratings history for apple") = true
    ∧ readTable exDocLower Option.none
        = .ok ([], [goodRow])
    ∧ readTable exDocLower (some (chars "Ratings History"))
        = .error .tableNotFound := by
  exact ⟨by decide, rfl, rfl⟩

/-- C3 (confirmed): when a heading hint is supplied and no heading
contains it (case-sensitively, as the code matches), or the first
matching heading is followed by no table (tables earlier in the document
notwithstanding), `readTable` fails with the table-not-found error, and
the symbol workflow propagates exactly that error to its caller. -/
theorem tableNotFound_propagation (symbol : Chars)
    (mainDoc ratingsDoc : Doc) (href exchange : Chars) (s : Chars)
    (hh : analystRatingsHref mainDoc = .ok href)
    (hx : stocksExchange href = .ok exchange) :
    ((∀ j t', ratingsDoc.nodes.get? j = some (.h2 t') →
        strHas s t' = false) →
      readTable ratingsDoc (some s) = .error .tableNotFound)
    ∧ (∀ i ti, ratingsDoc.nodes.get? i = some (.h2 ti) →
      strHas s ti = true →
      (∀ j, j < i → ∀ t', ratingsDoc.nodes.get? j = some (.h2 t') →
        strHas s t' = false) →
      (∀ j, i < j → ∀ t', ratingsDoc.nodes.get? j ≠ some (.htable t')) →
      readTable ratingsDoc (some s) = .error .tableNotFound)
    ∧ (readTable ratingsDoc (some (chars "Ratings History"))
        = .error .tableNotFound →
      getSymbolRatingsTable symbol mainDoc ratingsDoc
        = .error .tableNotFound) := by
  refine ⟨fun h => ?_, fun i ti hi hmatch hfirst hafter => ?_, fun h => ?_⟩
  · unfold readTable
    dsimp only
    rw [tableAfterH2_no_match s ratingsDoc.nodes h]
  · unfold readTable
    dsimp only
    rw [tableAfterH2_no_follow s ratingsDoc.nodes i ti hi hmatch hfirst hafter]
  · exact getSymbol_readTable_error symbol mainDoc ratingsDoc href exchange
      .tableNotFound hh hx h

/-- Witness for C3: on a ratings page whose only heading is
`Price Targets`, the hint `Ratings History` matches nothing, the locator
fails with the table-not-found error, and the whole symbol workflow
returns exactly that error; on a page where a table PRECEDES the only
matching heading and none follows it, the locator fails the same way. -/
theorem tableNotFound_propagation_witness :
    readTable exDocNoHead (some (chars "Ratings History"))
      = .error .tableNotFound
    ∧ getSymbolRatingsTable (chars "AAPL") exMainDoc exDocNoHead
      = .error .tableNotFound
    ∧ readTable exDocTableBefore (some (chars "Ratings History"))
      = .error .tableNotFound := by
  have h1 := (tableNotFound_propagation (chars "AAPL") exMainDoc exDocNoHead
    (chars "/stocks/NASDAQ/AAPL/price-target/") (chars "NASDAQ")
    (chars "Ratings History") rfl rfl).1
    (by intro j t' hg
        match j, hg with
        | 0, hg => simp [List.get?, exDocNoHead] at hg; rw [← hg]; decide
        | 1, hg => simp [List.get?, exDocNoHead] at hg
        | (n+2), hg => simp [List.get?, exDocNoHead] at hg)
  refine ⟨h1, ?_, ?_⟩
  · exact (tableNotFound_propagation (chars "AAPL") exMainDoc exDocNoHead
      (chars "/stocks/NASDAQ/AAPL/price-target/") (chars "NASDAQ")
      (chars "Ratings History") rfl rfl).2.2 h1
  · exact (tableNotFound_propagation (chars "AAPL") exMainDoc exDocTableBefore
      (chars "/stocks/NASDAQ/AAPL/price-target/") (chars "NASDAQ")
      (chars "Ratings History") rfl rfl).2.1 1
      (chars "Analyst Ratings History") rfl (by decide)
      (by intro j hj t' hg
          match j, hg with
          | 0, hg => simp [List.get?, exDocTableBefore] at hg
          | (n+1), hg => omega)
      (by intro j hj t' hg
          match j, hg with
          | 0, hg => omega
          | 1, hg => omega
          | 2, hg => simp [List.get?, exDocTableBefore] at hg
          | (n+3), hg => simp [List.get?, exDocTableBefore] at hg)

/-- C6 (confirmed): price-target parsing.  For any cell whose text ends,
after the final arrow glyph, in a segment that is numeric once the
currency symbol and thousands separators are stripped, the parser
returns exactly that decimal value; with no arrow the whole text is so
parsed; and a non-numeric remainder fails with `ValueError`. -/
theorem priceTarget_parsing (cell : Cell) :
    (∀ p s d, ¬ arrowChar ∈ s → cell.text = p ++ arrowChar :: s →
      pyFloat (pyStrip (removeChar ',' (removeChar '$' s))) = some d →
      parsePriceTargetTag cell = .ok d)
    ∧ (∀ d, ¬ arrowChar ∈ cell.text →
      pyFloat (pyStrip (removeChar ',' (removeChar '$' cell.text))) = some d →
      parsePriceTargetTag cell = .ok d)
    ∧ (∀ p s, ¬ arrowChar ∈ s → cell.text = p ++ arrowChar :: s →
      pyFloat (pyStrip (removeChar ',' (removeChar '$' s))) = Option.none →
      parsePriceTargetTag cell = .error .valueError) := by
  refine ⟨fun p s d hs htext hnum => ?_, fun d hs hnum => ?_,
    fun p s hs htext hnum => ?_⟩
  · unfold parsePriceTargetTag
    rw [htext, afterLast_split _ _ _ hs]
    dsimp only
    rw [hnum]
  · unfold parsePriceTargetTag
    rw [afterLast_absent _ _ hs]
    dsimp only
    rw [hnum]
  · unfold parsePriceTargetTag
    rw [htext, afterLast_split _ _ _ hs]
    dsimp only
    rw [hnum]

/-- Witness for C6: `"$10.00 ➝ $12.50"` parses to the decimal pair
`⟨1250, 2⟩`, whose rational value is `12.50`; `"$12.50"` (no arrow)
parses to the same value; `"N/A ➝ N/A"` fails. -/
theorem priceTarget_parsing_witness :
    parsePriceTargetTag cPT = .ok ⟨1250, 2⟩
    ∧ decNumVal ⟨1250, 2⟩ = 25 / 2
    ∧ parsePriceTargetTag cPTplain = .ok ⟨1250, 2⟩
    ∧ parsePriceTargetTag ⟨chars "N/A ➝ N/A", [], [], []⟩
        = .error .valueError := by
  refine ⟨?_, ?_, ?_, ?_⟩
  · exact (priceTarget_parsing cPT).1 (chars "$10.00 ") (chars " $12.50")
      ⟨1250, 2⟩ (by decide) rfl rfl
  · show ((1250 : Int) : Rat) / 10 ^ (2 : Nat) = 25 / 2
    norm_num
  · exact (priceTarget_parsing cPTplain).2.1 ⟨1250, 2⟩ (by decide) rfl
  · exact (priceTarget_parsing ⟨chars "N/A ➝ N/A", [], [], []⟩).2.2
      (chars "N/A ") (chars " N/A") (by decide) rfl rfl

/-- C7 (confirmed): rating parsing.  The rating label is the trimmed text
after the final arrow glyph; the rating code is the integer value of the
`data-sort-value` attribute when present, and `-1` when the attribute is
absent (a valid sentinel, not a failure). -/
theorem rating_parsing (cell : Cell) :
    (∀ s n, getAttr cell (chars "data-sort-value") = some s → pyInt s = some n →
      parseRatingTag cell = .ok (pyStrip (afterLast arrowChar cell.text), n))
    ∧ (getAttr cell (chars "data-sort-value") = Option.none →
      parseRatingTag cell = .ok (pyStrip (afterLast arrowChar cell.text), -1)) := by
  constructor
  · intro s n hs hn
    unfold parseRatingTag
    rw [hs, Option.getD_some, hn]
  · intro h
    unfold parseRatingTag
    rw [h, Option.getD_none]
    rfl

/-- Witness for C7: attribute `"3"` gives rating code 3 with label
`Overweight`; an absent attribute gives code `-1` with label `Hold`. -/
theorem rating_parsing_witness :
    parseRatingTag cRat = .ok (chars "Overweight", 3)
    ∧ parseRatingTag cRatNoAttr = .ok (chars "Hold", -1) := by
  constructor
  · exact ((rating_parsing cRat).1 (chars "3") 3 rfl rfl).trans rfl
  · exact ((rating_parsing cRatNoAttr).2 rfl).trans rfl

/-- C10 (confirmed): the `-1` sentinel applies only to an absent
`data-sort-value`; a present attribute that is not an integer literal
makes the rating parser raise `ValueError` (so the enclosing row is
discarded by the row loop rather than recorded with code -1). -/
theorem rating_badattr (cell : Cell) (s : Chars)
    (h1 : getAttr cell (chars "data-sort-value") = some s)
    (h2 : pyInt s = Option.none) :
    parseRatingTag cell = .error .valueError := by
  unfold parseRatingTag
  rw [h1, Option.getD_some, h2]

/-- Witness for C10: attribute value `"high"` is rejected, and the whole
daily row containing that cell is dropped by the row loop. -/
theorem rating_badattr_witness :
    parseRatingTag cRatBadAttr = .error .valueError
    ∧ assembleRows (processDailyRow (chars "2024-05-01"))
        [[cSym, cAct, cBrk, cAna, cAna, cPT, cRatBadAttr]] = [] := by
  exact ⟨rating_badattr cRatBadAttr (chars "high") rfl rfl, rfl⟩

end Marketbeat
